import Mathlib

/-!
Verification of the Anexis build orchestrator core against its design
specification.

The Go sources are shallowly embedded: pure decision logic is translated
to Lean functions, filesystem effects become explicit state passing over a
small filesystem model, and collaborator outcomes (git transport, the
container engine, the YAML decoder) are abstracted as explicit inputs.
Strings follow Go semantics; Unix path handling (path/filepath with the
separator fixed to the slash) is modelled over character lists so that all
definitions evaluate inside the kernel.
-/

set_option maxRecDepth 16384

namespace Anexis

/-- Decidable equality for Except results, so concrete runs of the
embedded operations can be checked by evaluation. -/
instance instDecEqExcept {ε α : Type} [DecidableEq ε] [DecidableEq α] :
    DecidableEq (Except ε α) := fun a b =>
  match a, b with
  | .ok x, .ok y =>
    if h : x = y then .isTrue (congrArg Except.ok h)
    else .isFalse (fun hc => h (Except.ok.inj hc))
  | .error x, .error y =>
    if h : x = y then .isTrue (congrArg Except.error h)
    else .isFalse (fun hc => h (Except.error.inj hc))
  | .ok _, .error _ => .isFalse (fun hc => Except.noConfusion hc)
  | .error _, .ok _ => .isFalse (fun hc => Except.noConfusion hc)

/-! Path model: Go path/filepath on Unix, for rooted destination paths.
Paths are strings; internally they are handled as slash-separated
component lists, mirroring what filepath.Clean and filepath.Join compute
for a rooted left operand. -/

/-- Split a character list on the slash separator. -/
def splitCharsAux : List Char → List Char → List (List Char)
  | acc, [] => [acc.reverse]
  | acc, c :: rest =>
    if c = '/' then acc.reverse :: splitCharsAux [] rest
    else splitCharsAux (c :: acc) rest

/-- Path components of a string, dropping empty and "." components (the
components filepath.Clean discards). -/
def splitPath (s : String) : List String :=
  ((splitCharsAux [] s.data).map String.mk).filter (fun c => !(c == "" || c == "."))

/-- Resolve ".." components against an accumulated (reversed) stack of
components, the way filepath.Clean does for a rooted path: ".." pops the
previous component and is dropped at the root. -/
def cleanCompsAux : List String → List String → List String
  | acc, [] => acc.reverse
  | acc, c :: rest =>
    if c = ".." then cleanCompsAux (acc.drop 1) rest
    else cleanCompsAux (c :: acc) rest

/-- Clean components of the concatenation of two component lists: the
component-level content of filepath.Join for a rooted first operand. -/
def joinComps (d t : List String) : List String :=
  cleanCompsAux [] (d ++ t)

/-- Render components separated by slashes. -/
def joinWithSlash : List String → List Char
  | [] => []
  | [s] => s.data
  | s :: rest => s.data ++ '/' :: joinWithSlash rest

/-- Render a rooted path from its components. -/
def renderRooted (cs : List String) : String :=
  String.mk ('/' :: joinWithSlash cs)

/-- Model of filepath.Clean for a rooted path. -/
def cleanRooted (p : String) : String :=
  renderRooted (cleanCompsAux [] (splitPath p))

/-- Model of filepath.Join(dest, name) for a rooted dest: concatenate and
clean. -/
def goJoinRooted (dest name : String) : String :=
  renderRooted (joinComps (splitPath dest) (splitPath name))

/-- Model of Go strings.HasPrefix(s, p). -/
def goHasPrefixStr (s p : String) : Bool :=
  p.data.isPrefixOf s.data

/-- Model of filepath.Dir for a rooted path: drop the final component. -/
def parentDirStr (p : String) : String :=
  renderRooted ((cleanCompsAux [] (splitPath p)).dropLast)

/-- Model of filepath.Base: the last non-empty slash-separated element. -/
def filepathBase (p : String) : String :=
  ((((splitCharsAux [] p.data).map String.mk).filter (fun c => !(c == ""))).getLastD
    (if p = "" then "." else "/"))

/-! Filesystem model for archive extraction.

State records every object the extraction created.  Directory and symlink
locations are recorded at their lexical paths.  Regular-file creation goes
through os.OpenFile(..., O_CREATE|O_TRUNC|O_WRONLY, ...), which the
operating system resolves through an existing symbolic link at the final
path component; the model resolves one such level, which under-approximates
full POSIX resolution but suffices to expose real behaviour. -/

/-- Filesystem state: directories, regular files (at their resolved
paths), and symbolic links (location, link target) created so far. -/
structure FSState where
  dirs : List String
  files : List String
  symlinks : List (String × String)
deriving Repr, DecidableEq

/-- The empty filesystem. -/
def emptyFS : FSState := ⟨[], [], []⟩

/-- Look up the link target recorded for a path, if that path was created
as a symbolic link. -/
def lookupLink : List (String × String) → String → Option String
  | [], _ => none
  | (q, t) :: rest, p => if q = p then some t else lookupLink rest p

/-- Resolve a path for an open-for-write: if the final component is an
existing symbolic link, the write lands at the link target (interpreted
relative to the link's directory when the target is not rooted). -/
def resolveOpenPath (fs : FSState) (p : String) : String :=
  match lookupLink fs.symlinks p with
  | none => p
  | some target =>
    if goHasPrefixStr target "/" then cleanRooted target
    else goJoinRooted (parentDirStr p) target

/-! Archive engine: extractTar and extractZip from the build service.
Each tar header carries a name, a type flag and (for links) a link name;
the tar/zip parsers themselves are the Go standard library and are
abstracted as the entry list they yield. -/

/-- Tar entry type flags distinguished by extractTar's switch. -/
inductive TarTypeflag where
  | dir
  | reg
  | symlink
  | hardlink
  | other
deriving Repr, DecidableEq

/-- One tar entry as extractTar consumes it. -/
structure TarHeaderM where
  name : String
  typeflag : TarTypeflag
  linkname : String
deriving Repr, DecidableEq

/-- Translation of extractTar: for each entry, join its name under the
destination directory, reject the entry when the joined path does not
have Clean(destDir)+"/" as a string prefix, then create the directory,
regular file (parents first), or symbolic link; hard links and other
entry types are skipped with a warning. -/
def extractTar (destDir : String) : List TarHeaderM → FSState → Except String FSState
  | [], fs => .ok fs
  | h :: rest, fs =>
    let target := goJoinRooted destDir h.name
    if !(goHasPrefixStr target (cleanRooted destDir ++ "/")) then
      .error ("invalid tar content: '" ++ h.name ++ "' trying to get out from the source repertory")
    else
      match h.typeflag with
      | .dir => extractTar destDir rest { fs with dirs := fs.dirs ++ [target] }
      | .reg =>
        extractTar destDir rest
          { fs with
            dirs := fs.dirs ++ [parentDirStr target],
            files := fs.files ++ [resolveOpenPath fs target] }
      | .symlink =>
        extractTar destDir rest { fs with symlinks := fs.symlinks ++ [(target, h.linkname)] }
      | .hardlink => extractTar destDir rest fs
      | .other => extractTar destDir rest fs

/-- One zip entry as extractZip consumes it (directory flag from
f.FileInfo().IsDir()). -/
structure ZipEntryM where
  name : String
  isDir : Bool
deriving Repr, DecidableEq

/-- Translation of extractZip: same joined-path prefix check as
extractTar; directories are created, regular files are written after
creating parents (the open follows an existing symlink at the final
component, as in the tar case). -/
def extractZip (destDir : String) : List ZipEntryM → FSState → Except String FSState
  | [], fs => .ok fs
  | f :: rest, fs =>
    let targetPath := goJoinRooted destDir f.name
    if !(goHasPrefixStr targetPath (cleanRooted destDir ++ "/")) then
      .error ("invalid content: '" ++ f.name ++ "' trying to get out from the target repertory")
    else if f.isDir then
      extractZip destDir rest { fs with dirs := fs.dirs ++ [targetPath] }
    else
      extractZip destDir rest
        { fs with
          dirs := fs.dirs ++ [parentDirStr targetPath],
          files := fs.files ++ [resolveOpenPath fs targetPath] }

/-- A path lies inside a root when the root (with a trailing separator)
is a string prefix of it. -/
def insideRoot (root p : String) : Bool :=
  goHasPrefixStr p (cleanRooted root ++ "/")

/-- Every object a filesystem state records, by its recorded path. -/
def allCreatedPaths (fs : FSState) : List String :=
  fs.dirs ++ fs.files ++ fs.symlinks.map Prod.fst

/-- Claim C1, as stated: for tar and zip alike, a successful extraction
never creates a file, directory, or symlink outside the extraction root,
regardless of the archive's contents (traversal components and symlink
entries included). -/
def extractionNeverEscapes : Prop :=
  (∀ (destDir : String) (entries : List TarHeaderM) (fs : FSState),
      extractTar destDir entries emptyFS = Except.ok fs →
      ∀ p ∈ allCreatedPaths fs, insideRoot destDir p = true) ∧
  (∀ (destDir : String) (entries : List ZipEntryM) (fs : FSState),
      extractZip destDir entries emptyFS = Except.ok fs →
      ∀ p ∈ allCreatedPaths fs, insideRoot destDir p = true)

/-- C1 counterexample: the tar archive [symlink "f" -> "../pwned",
regular file "f"] extracts into root "/dst/build" without error, yet the
regular-file write is resolved through the just-created symlink and lands
at "/dst/pwned", outside the root.  The lexical prefix check inspects only
the joined entry name, never the symlink's target. -/
theorem extractTar_symlink_escape_counterexample : ¬ extractionNeverEscapes := by
  intro hclaim
  have hrun :
      extractTar "/dst/build" [⟨"f", .symlink, "../pwned"⟩, ⟨"f", .reg, ""⟩] emptyFS
        = Except.ok ⟨["/dst/build"], ["/dst/pwned"], [("/dst/build/f", "../pwned")]⟩ := by decide
  have hinside :=
    hclaim.1 "/dst/build" [⟨"f", .symlink, "../pwned"⟩, ⟨"f", .reg, ""⟩]
      ⟨["/dst/build"], ["/dst/pwned"], [("/dst/build/f", "../pwned")]⟩ hrun
      "/dst/pwned" (by decide)
  exact absurd hinside (by decide)

/-- Helper for the amended C1 claim: a successful extractTar run passed
the joined-destination prefix check on every entry. -/
lemma extractTar_entry_check (destDir : String) :
    ∀ (entries : List TarHeaderM) (fs0 fsF : FSState),
      extractTar destDir entries fs0 = Except.ok fsF →
      ∀ e ∈ entries, goHasPrefixStr (goJoinRooted destDir e.name) (cleanRooted destDir ++ "/") = true := by
  intro entries
  induction entries with
  | nil => intro fs0 fsF _ e he; cases he
  | cons hd tl ih =>
    intro fs0 fsF h e he
    rw [extractTar] at h
    by_cases hc : goHasPrefixStr (goJoinRooted destDir hd.name) (cleanRooted destDir ++ "/") = true
    · rcases List.mem_cons.mp he with rfl | he
      · exact hc
      · simp only [hc, Bool.not_true, Bool.false_eq_true, if_false, ite_false] at h
        cases htf : hd.typeflag <;> rw [htf] at h <;> exact ih _ _ h e he
    · rw [Bool.not_eq_true] at hc
      simp only [hc, Bool.not_false, if_true, ite_true] at h
      cases h

/-- Helper for the amended C1 claim: extractZip enforces the same check. -/
lemma extractZip_entry_check (destDir : String) :
    ∀ (entries : List ZipEntryM) (fs0 fsF : FSState),
      extractZip destDir entries fs0 = Except.ok fsF →
      ∀ f ∈ entries, goHasPrefixStr (goJoinRooted destDir f.name) (cleanRooted destDir ++ "/") = true := by
  intro entries
  induction entries with
  | nil => intro fs0 fsF _ f hf; cases hf
  | cons hd tl ih =>
    intro fs0 fsF h f hf
    rw [extractZip] at h
    by_cases hc : goHasPrefixStr (goJoinRooted destDir hd.name) (cleanRooted destDir ++ "/") = true
    · rcases List.mem_cons.mp hf with rfl | hf
      · exact hc
      · simp only [hc, Bool.not_true, Bool.false_eq_true, if_false, ite_false] at h
        by_cases hd2 : hd.isDir = true <;> simp only [hd2, if_true, if_false, ite_true, ite_false] at h <;>
          exact ih _ _ h f hf
    · rw [Bool.not_eq_true] at hc
      simp only [hc, Bool.not_false, if_true, ite_true] at h
      cases h

/-- C1 amended: extraction stops with an error at the first entry whose
lexically joined destination (filepath.Join followed by the
Clean(destDir)+"/" string-prefix test) escapes the root, so on success
every entry's joined destination lies under the root; but symlink link
targets are never validated, so a file entry written through a previously
created in-root symlink can land outside the root. -/
theorem extract_claimC1_amended :
    (∀ (destDir : String) (entries : List TarHeaderM) (fs0 fsF : FSState),
        extractTar destDir entries fs0 = Except.ok fsF →
        ∀ e ∈ entries, goHasPrefixStr (goJoinRooted destDir e.name) (cleanRooted destDir ++ "/") = true) ∧
    (∀ (destDir : String) (entries : List ZipEntryM) (fs0 fsF : FSState),
        extractZip destDir entries fs0 = Except.ok fsF →
        ∀ f ∈ entries, goHasPrefixStr (goJoinRooted destDir f.name) (cleanRooted destDir ++ "/") = true) :=
  ⟨fun destDir entries fs0 fsF h => extractTar_entry_check destDir entries fs0 fsF h,
   fun destDir entries fs0 fsF h => extractZip_entry_check destDir entries fs0 fsF h⟩

/-- Witness for the amended C1 theorem at a concrete archive. -/
theorem extract_claimC1_amended_witness :
    goHasPrefixStr (goJoinRooted "/dst/build" "a/b") (cleanRooted "/dst/build" ++ "/") = true :=
  extract_claimC1_amended.1 "/dst/build" [⟨"a/b", TarTypeflag.reg, ""⟩] emptyFS
    ⟨["/dst/build/a"], ["/dst/build/a/b"], []⟩ (by decide)
    ⟨"a/b", TarTypeflag.reg, ""⟩ (by decide)

/-! Build-spec data model and loader (LoadBuildSpecFromBytes).

The YAML/JSON decoding layer is the external yaml.v3/encoding-json
library; it is abstracted as a document of optional fields
(BuildSpecDoc): a field that is present in the document overwrites the
corresponding struct field, a field that is absent leaves the
pre-initialized value in place, exactly as unmarshalling into a
pre-populated Go struct behaves. -/

/-- Codebase entry of a build spec (CodebaseConfig). -/
structure CodebaseConfigM where
  name : String
  sourceType : String
  source : String
  branch : String
  commit : String
  content : List Nat
  buildOnly : Bool
  targetInHost : String
deriving Repr, DecidableEq

/-- Build step of a build spec (BuildStep). -/
structure BuildStepM where
  name : String
  codebaseName : String
  outputsBinaryPath : String
  useBinaryFromStep : String
  binaryTargetPath : String
deriving Repr, DecidableEq

/-- Resource request of a build spec (Resource). -/
structure ResourceM where
  url : String
  targetPath : String
  extract : Bool
deriving Repr, DecidableEq

/-- Build configuration of a build spec (BuildConfig). -/
structure BuildConfigM where
  dockerfile : String
  composeFile : String
  tags : List String
  outputTarget : String
  localPath : String
deriving Repr, DecidableEq

/-- Run-config definition of a build spec (RunConfigDef). -/
structure RunConfigDefM where
  generate : Bool
  artifactStorage : String
deriving Repr, DecidableEq

/-- The build spec (BuildSpec), restricted to the fields the verified
operations read. -/
structure BuildSpecM where
  name : String
  version : String
  codebases : List CodebaseConfigM
  buildSteps : List BuildStepM
  buildConfig : BuildConfigM
  resources : List ResourceM
  runConfigDef : RunConfigDefM
deriving Repr, DecidableEq

/-- A decoded spec document: one Option per field, present fields
overwrite the pre-initialized struct during unmarshalling. -/
structure BuildSpecDoc where
  name : Option String
  version : Option String
  codebases : Option (List CodebaseConfigM)
  buildSteps : Option (List BuildStepM)
  dockerfile : Option String
  composeFile : Option String
  tags : Option (List String)
  outputTarget : Option String
  localPath : Option String
  resources : Option (List ResourceM)
  generate : Option Bool
  artifactStorage : Option String
deriving Repr, DecidableEq

/-- A wholly absent document: every field omitted. -/
def emptyDoc : BuildSpecDoc :=
  ⟨none, none, none, none, none, none, none, none, none, none, none, none⟩

/-- The spec value LoadBuildSpecFromBytes starts from: Go zero values
with the three defaults assigned before decoding (OutputTarget "docker",
RunConfigDef.Generate true, RunConfigDef.ArtifactStorage "docker"). -/
def defaultInitSpec : BuildSpecM :=
  { name := "", version := "", codebases := [], buildSteps := [],
    buildConfig := { dockerfile := "", composeFile := "", tags := [],
                     outputTarget := "docker", localPath := "" },
    resources := [],
    runConfigDef := { generate := true, artifactStorage := "docker" } }

/-- Unmarshalling a document into a pre-initialized spec: present fields
overwrite, absent fields keep the base value (yaml.v3 and encoding/json
both behave this way). -/
def unmarshalSpecInto (base : BuildSpecM) (doc : BuildSpecDoc) : BuildSpecM :=
  { name := doc.name.getD base.name,
    version := doc.version.getD base.version,
    codebases := doc.codebases.getD base.codebases,
    buildSteps := doc.buildSteps.getD base.buildSteps,
    buildConfig :=
      { dockerfile := doc.dockerfile.getD base.buildConfig.dockerfile,
        composeFile := doc.composeFile.getD base.buildConfig.composeFile,
        tags := doc.tags.getD base.buildConfig.tags,
        outputTarget := doc.outputTarget.getD base.buildConfig.outputTarget,
        localPath := doc.localPath.getD base.buildConfig.localPath },
    resources := doc.resources.getD base.resources,
    runConfigDef :=
      { generate := doc.generate.getD base.runConfigDef.generate,
        artifactStorage := doc.artifactStorage.getD base.runConfigDef.artifactStorage } }

/-- Translation of LoadBuildSpecFromBytes: set the defaults, decode the
document over them (a decoding failure is propagated), then run the three
validation checks in source order. -/
def LoadBuildSpecFromBytes (parsed : Except String BuildSpecDoc) : Except String BuildSpecM :=
  match parsed with
  | .error e => .error ("specification parsing failed: " ++ e)
  | .ok doc =>
    let spec := unmarshalSpecInto defaultInitSpec doc
    if spec.name = "" ∨ spec.version = "" then
      .error "the fields 'name' and 'version' are required in the specification"
    else if spec.codebases.length = 0 ∧ spec.buildSteps.length = 0 ∧
        spec.buildConfig.dockerfile = "" ∧ spec.buildConfig.composeFile = "" then
      .error "no codebase, build_step, dockerfile or compose_file specified"
    else if spec.buildConfig.dockerfile ≠ "" ∧ spec.buildConfig.composeFile ≠ "" then
      .error "don't specify 'dockerfile' et 'compose_file' in the build_config"
    else
      .ok spec

/-- Whether an Except result is a success. -/
def exceptIsOk {ε α : Type} : Except ε α → Bool
  | .ok _ => true
  | .error _ => false

/-- C3: given a structurally decodable document, loading returns an
invalid-spec error if and only if one of the spec invariants is violated
(empty name, empty version, none of codebases / build steps / dockerfile
/ compose file present, or dockerfile and compose file both set); a spec
satisfying all invariants is accepted. -/
theorem LoadBuildSpecFromBytes_invalid_iff (doc : BuildSpecDoc) :
    exceptIsOk (LoadBuildSpecFromBytes (Except.ok doc)) = true ↔
      ¬((unmarshalSpecInto defaultInitSpec doc).name = "" ∨
        (unmarshalSpecInto defaultInitSpec doc).version = "" ∨
        ((unmarshalSpecInto defaultInitSpec doc).codebases = [] ∧
         (unmarshalSpecInto defaultInitSpec doc).buildSteps = [] ∧
         (unmarshalSpecInto defaultInitSpec doc).buildConfig.dockerfile = "" ∧
         (unmarshalSpecInto defaultInitSpec doc).buildConfig.composeFile = "") ∨
        ((unmarshalSpecInto defaultInitSpec doc).buildConfig.dockerfile ≠ "" ∧
         (unmarshalSpecInto defaultInitSpec doc).buildConfig.composeFile ≠ "")) := by
  simp only [LoadBuildSpecFromBytes]
  split_ifs with h1 h2 h3
  · simp only [exceptIsOk, Bool.false_eq_true, false_iff, not_not]
    rcases h1 with h | h
    · exact Or.inl h
    · exact Or.inr (Or.inl h)
  · simp only [exceptIsOk, Bool.false_eq_true, false_iff, not_not]
    refine Or.inr (Or.inr (Or.inl ?_))
    exact ⟨List.length_eq_zero.mp h2.1, List.length_eq_zero.mp h2.2.1, h2.2.2.1, h2.2.2.2⟩
  · simp only [exceptIsOk, Bool.false_eq_true, false_iff, not_not]
    exact Or.inr (Or.inr (Or.inr h3))
  · constructor
    · intro _ hV
      rcases hV with h | h | h | h
      · exact h1 (Or.inl h)
      · exact h1 (Or.inr h)
      · exact h2 ⟨by rw [h.1]; rfl, by rw [h.2.1]; rfl, h.2.2.1, h.2.2.2⟩
      · exact h3 h
    · intro _
      rfl

/-- Witness for C3 at a concrete document: a spec with a name, a version
and a dockerfile loads successfully. -/
theorem LoadBuildSpecFromBytes_invalid_iff_witness :
    exceptIsOk (LoadBuildSpecFromBytes (Except.ok
      { emptyDoc with name := some "demo", version := some "1",
                      dockerfile := some "FROM alpine" })) = true :=
  (LoadBuildSpecFromBytes_invalid_iff
    { emptyDoc with name := some "demo", version := some "1",
                    dockerfile := some "FROM alpine" }).mpr (by decide)

/-- C9: loading applies the defaults before decoding, so a document that
omits output_target, run-config generate, or artifact_storage loads with
"docker", true, and "docker" respectively, while values present in the
document are kept verbatim. -/
theorem LoadBuildSpecFromBytes_defaults (doc : BuildSpecDoc) (spec : BuildSpecM)
    (h : LoadBuildSpecFromBytes (Except.ok doc) = Except.ok spec) :
    spec.buildConfig.outputTarget = doc.outputTarget.getD "docker" ∧
    spec.runConfigDef.generate = doc.generate.getD true ∧
    spec.runConfigDef.artifactStorage = doc.artifactStorage.getD "docker" := by
  have hs : spec = unmarshalSpecInto defaultInitSpec doc := by
    rw [LoadBuildSpecFromBytes] at h
    split at h
    · cases h
    · split at h
      · cases h
      · split at h
        · cases h
        · exact (Except.ok.inj h).symm
  subst hs
  exact ⟨rfl, rfl, rfl⟩

/-- Witness for C9: a document omitting all three fields loads with the
documented defaults. -/
theorem LoadBuildSpecFromBytes_defaults_witness :
    ((unmarshalSpecInto defaultInitSpec
        { emptyDoc with name := some "demo", version := some "1",
                        dockerfile := some "FROM alpine" }).buildConfig.outputTarget = "docker") ∧
    ((unmarshalSpecInto defaultInitSpec
        { emptyDoc with name := some "demo", version := some "1",
                        dockerfile := some "FROM alpine" }).runConfigDef.generate = true) ∧
    ((unmarshalSpecInto defaultInitSpec
        { emptyDoc with name := some "demo", version := some "1",
                        dockerfile := some "FROM alpine" }).runConfigDef.artifactStorage = "docker") :=
  LoadBuildSpecFromBytes_defaults
    { emptyDoc with name := some "demo", version := some "1", dockerfile := some "FROM alpine" }
    (unmarshalSpecInto defaultInitSpec
      { emptyDoc with name := some "demo", version := some "1", dockerfile := some "FROM alpine" })
    (by decide)

/-! Secret fetching (GetSecret, DummySecretFetcher). -/

/-- Translation of DummySecretFetcher.GetSecret: always succeeds with a
placeholder value derived from the source key. -/
def DummySecretFetcherGetSecret (source : String) : Except String String :=
  .ok ("dummy-secret-for-" ++ source)

/-- The build service state the secret path reads: the injected secret
fetcher, or none when the service was constructed without one. -/
structure BuildServiceM where
  workDir : String
  secretFetcher : Option (String → Except String String)

/-- Translation of NewBuildService's field assignment: the injected
fetcher is stored as given (a nil fetcher stays nil). -/
def NewBuildServiceModel (workDir : String)
    (secretFetcher : Option (String → Except String String)) : BuildServiceM :=
  { workDir := workDir, secretFetcher := secretFetcher }

/-- Translation of BuildService.GetSecret: use the configured fetcher,
falling back to DummySecretFetcher when none is configured. -/
def GetSecret (s : BuildServiceM) (source : String) : Except String String :=
  match s.secretFetcher with
  | some f => f source
  | none => DummySecretFetcherGetSecret source

/-- C10: a build service constructed without a secret fetcher never
fails a secret lookup: GetSecret falls back to the dummy fetcher and
returns the placeholder "dummy-secret-for-(source)" for every source. -/
theorem GetSecret_no_fetcher_never_fails (workDir source : String) :
    GetSecret (NewBuildServiceModel workDir none) source
      = Except.ok ("dummy-secret-for-" ++ source) := rfl

/-! Output handling: final image-tag resolution in Build() (claim C7). -/

/-- Translation of the tag-collection block of Build(): compose builds
tag every built service "{spec.Name}_{service}:latest"; a single-image
build uses the spec's tags when supplied, else "{name}:{version}".
Service outputs are abstracted as the list of built service names. -/
def resolveFinalImageTags (spec : BuildSpecM) (serviceOutputs : List String)
    (mainImageID : String) : List (String × List String) :=
  if spec.buildConfig.composeFile ≠ "" then
    serviceOutputs.map (fun serviceName =>
      (serviceName, [spec.name ++ "_" ++ serviceName ++ ":latest"]))
  else if mainImageID ≠ "" then
    [(spec.name,
      if spec.buildConfig.tags.length > 0 then spec.buildConfig.tags
      else [spec.name ++ ":" ++ spec.version])]
  else []

/-- Tag resolution as claim C7 words it: spec-supplied tags take
precedence in every mode; only otherwise do the per-mode defaults apply. -/
def specClaimTags (spec : BuildSpecM) (serviceName : String) (isCompose : Bool) : List String :=
  if spec.buildConfig.tags.length > 0 then spec.buildConfig.tags
  else if isCompose then [spec.name ++ "_" ++ serviceName ++ ":latest"]
  else [spec.name ++ ":" ++ spec.version]

/-- Claim C7 as stated: every resolved tag set follows specClaimTags. -/
def c7ClaimStatement : Prop :=
  ∀ (spec : BuildSpecM) (serviceOutputs : List String) (mainImageID : String),
    ∀ entry ∈ resolveFinalImageTags spec serviceOutputs mainImageID,
      entry.2 = specClaimTags spec entry.1 (spec.buildConfig.composeFile != "")

/-- A compose build spec that supplies an explicit tag. -/
def composeDemoSpec : BuildSpecM :=
  { defaultInitSpec with
    name := "demo", version := "1",
    buildConfig := { defaultInitSpec.buildConfig with
                     composeFile := "docker-compose.yml", tags := ["custom:1"] } }

/-- C7 counterexample: a compose build whose spec supplies the tag
"custom:1" still resolves service "web" to ["demo_web:latest"]; the
compose branch never reads the spec's tags. -/
theorem resolveFinalImageTags_claimC7_false : ¬ c7ClaimStatement := by
  intro h
  have hm := h composeDemoSpec ["web"] "" ("web", ["demo_web:latest"]) (by decide)
  exact absurd hm (by decide)

/-- Tag resolution as amended: compose services are always tagged
"{spec_name}_{service}:latest" (spec tags are ignored for compose);
single-image builds use the spec's tags when supplied, else
"{name}:{version}". -/
def specAmendedTags (spec : BuildSpecM) (serviceName : String) (isCompose : Bool) : List String :=
  if isCompose then [spec.name ++ "_" ++ serviceName ++ ":latest"]
  else if spec.buildConfig.tags.length > 0 then spec.buildConfig.tags
  else [spec.name ++ ":" ++ spec.version]

/-- C7 amended: every entry of the resolved tag table matches the
amended per-mode rule. -/
theorem resolveFinalImageTags_claimC7_amended
    (spec : BuildSpecM) (serviceOutputs : List String) (mainImageID : String) :
    ∀ entry ∈ resolveFinalImageTags spec serviceOutputs mainImageID,
      entry.2 = specAmendedTags spec entry.1 (spec.buildConfig.composeFile != "") := by
  intro entry hmem
  rw [resolveFinalImageTags] at hmem
  by_cases hc : spec.buildConfig.composeFile = ""
  · have hb : (spec.buildConfig.composeFile != "") = false := bne_eq_false_iff_eq.mpr hc
    rw [if_neg (by simp [hc])] at hmem
    by_cases hm2 : mainImageID = ""
    · rw [if_neg (by simp [hm2])] at hmem
      cases hmem
    · rw [if_pos hm2] at hmem
      have he := List.mem_singleton.mp hmem
      subst he
      rw [hb]
      simp [specAmendedTags]
  · have hb : (spec.buildConfig.composeFile != "") = true := bne_iff_ne.mpr hc
    rw [if_pos hc] at hmem
    rcases List.mem_map.mp hmem with ⟨s, _, rfl⟩
    rw [hb]
    simp [specAmendedTags]

/-- Witness for the amended C7 theorem at the compose example. -/
theorem resolveFinalImageTags_claimC7_amended_witness :
    (("web", ["demo_web:latest"]) : String × List String).2
      = specAmendedTags composeDemoSpec "web" (composeDemoSpec.buildConfig.composeFile != "") :=
  resolveFinalImageTags_claimC7_amended composeDemoSpec ["web"] ""
    ("web", ["demo_web:latest"]) (by decide)

/-! Runtime manifest image-reference selection (getImageRefForRun,
claim C8). -/

/-- Association-list lookup mirroring a Go map read (with comma-ok). -/
def lookupAssoc {α : Type} : List (String × α) → String → Option α
  | [], _ => none
  | (k, v) :: rest, key => if k = key then some v else lookupAssoc rest key

/-- Fallback of getImageRefForRun's "docker" case: when an image ID is
recorded for the service it returns the default tag "{service}:latest"
(not the ID); otherwise a not-found marker. -/
def getImageRefForRunDockerFallback (serviceName : String)
    (imageIDs : List (String × String)) : String :=
  match lookupAssoc imageIDs serviceName with
  | some imgID =>
    if imgID ≠ "" then serviceName ++ ":latest"
    else "docker:" ++ serviceName ++ "_image_or_tag_not_found"
  | none => "docker:" ++ serviceName ++ "_image_or_tag_not_found"

/-- Fallback of getImageRefForRun's default case: first tag, then the
image ID itself, then a marker. -/
def getImageRefForRunUnknownFallback (serviceName : String)
    (imageIDs : List (String × String)) : String :=
  match lookupAssoc imageIDs serviceName with
  | some imgID =>
    if imgID ≠ "" then imgID
    else "unknown_storage:" ++ serviceName ++ "_not_found"
  | none => "unknown_storage:" ++ serviceName ++ "_not_found"

/-- Translation of getImageRefForRun: switch on the artifact-storage
type; "local" returns the basename of the recorded tar path, "docker"
returns the first recorded tag or the docker fallback, any other value
uses the first tag, then the image ID, then a marker. -/
def getImageRefForRun (serviceName storageType : String)
    (localImagePaths imageIDs : List (String × String))
    (finalImageTags : List (String × List String)) : String :=
  if storageType = "local" then
    match lookupAssoc localImagePaths serviceName with
    | some path =>
      if path ≠ "" then filepathBase path
      else "local:" ++ serviceName ++ "_image_not_found.tar"
    | none => "local:" ++ serviceName ++ "_image_not_found.tar"
  else if storageType = "docker" then
    match lookupAssoc finalImageTags serviceName with
    | some tags =>
      if tags.length > 0 ∧ tags.headD "" ≠ "" then tags.headD ""
      else getImageRefForRunDockerFallback serviceName imageIDs
    | none => getImageRefForRunDockerFallback serviceName imageIDs
  else
    match lookupAssoc finalImageTags serviceName with
    | some tags =>
      if tags.length > 0 ∧ tags.headD "" ≠ "" then tags.headD ""
      else getImageRefForRunUnknownFallback serviceName imageIDs
    | none => getImageRefForRunUnknownFallback serviceName imageIDs

/-- Engine-storage image reference as claim C8 words it: the first
recorded tag, falling back to the service's image identifier, falling
back to the default "{service}:latest". -/
def specClaimEngineRef (serviceName : String) (imageIDs : List (String × String))
    (tagsFound : Option (List String)) : String :=
  match tagsFound with
  | some (t :: _) => t
  | _ =>
    match lookupAssoc imageIDs serviceName with
    | some imgID => imgID
    | none => serviceName ++ ":latest"

/-- Claim C8 as stated: the engine branch follows specClaimEngineRef and
the local branch returns the basename of the recorded tar path. -/
def c8ClaimStatement : Prop :=
  ∀ (serviceName : String) (localImagePaths imageIDs : List (String × String))
    (finalImageTags : List (String × List String)),
    (getImageRefForRun serviceName "docker" localImagePaths imageIDs finalImageTags
      = specClaimEngineRef serviceName imageIDs (lookupAssoc finalImageTags serviceName)) ∧
    (∀ path, lookupAssoc localImagePaths serviceName = some path → path ≠ "" →
      getImageRefForRun serviceName "local" localImagePaths imageIDs finalImageTags
        = filepathBase path)

/-- C8 counterexample: with no tag recorded for service "web" and image
ID "abc123" recorded, the code returns the default tag "web:latest"
instead of falling back to the image identifier "abc123". -/
theorem getImageRefForRun_claimC8_false : ¬ c8ClaimStatement := by
  intro h
  have hd := (h "web" [] [("web", "abc123")] []).1
  exact absurd hd (by decide)

/-- Engine-storage image reference as amended: the first recorded tag
when non-empty; otherwise, when a non-empty image identifier is recorded,
the default "{service}:latest"; otherwise a not-found marker. -/
def specAmendedEngineRef (serviceName : String) (imageIDs : List (String × String))
    (tagsFound : Option (List String)) : String :=
  match tagsFound with
  | some (t :: _) =>
    if t = "" then getImageRefForRunDockerFallback serviceName imageIDs else t
  | some [] => getImageRefForRunDockerFallback serviceName imageIDs
  | none => getImageRefForRunDockerFallback serviceName imageIDs

/-- Local-storage image reference as amended: the basename of the
recorded tar path when present and non-empty, else a not-found marker. -/
def specAmendedLocalRef (serviceName : String) (pathFound : Option String) : String :=
  match pathFound with
  | some path =>
    if path = "" then "local:" ++ serviceName ++ "_image_not_found.tar"
    else filepathBase path
  | none => "local:" ++ serviceName ++ "_image_not_found.tar"

/-- C8 amended: both storage branches of getImageRefForRun agree with
the amended selection rules. -/
theorem getImageRefForRun_claimC8_amended
    (serviceName : String) (localImagePaths imageIDs : List (String × String))
    (finalImageTags : List (String × List String)) :
    (getImageRefForRun serviceName "docker" localImagePaths imageIDs finalImageTags
      = specAmendedEngineRef serviceName imageIDs (lookupAssoc finalImageTags serviceName)) ∧
    (getImageRefForRun serviceName "local" localImagePaths imageIDs finalImageTags
      = specAmendedLocalRef serviceName (lookupAssoc localImagePaths serviceName)) := by
  constructor
  · rw [getImageRefForRun, if_neg (by decide), if_pos rfl]
    cases htags : lookupAssoc finalImageTags serviceName with
    | none => rfl
    | some tags =>
      cases tags with
      | nil => simp [specAmendedEngineRef]
      | cons t ts =>
        by_cases ht : t = ""
        · subst ht
          simp [specAmendedEngineRef]
        · simp [specAmendedEngineRef, ht]
  · rw [getImageRefForRun, if_pos rfl]
    cases hp : lookupAssoc localImagePaths serviceName with
    | none => rfl
    | some path =>
      by_cases hp2 : path = ""
      · subst hp2
        simp [specAmendedLocalRef]
      · simp [specAmendedLocalRef, hp2]

/-! Resource download target path (claim C4). -/

/-- Translation of the resource step of Build(): the download target is
filepath.Join(buildDir, res.TargetPath), with no further check. -/
def downloadTargetFullPath (buildDir : String) (res : ResourceM) : String :=
  goJoinRooted buildDir res.targetPath

/-- Claim C4 as stated: whatever the target_path, the downloaded file's
path stays inside the per-build directory. -/
def c4ClaimStatement : Prop :=
  ∀ (buildDir : String) (res : ResourceM),
    insideRoot buildDir (downloadTargetFullPath buildDir res) = true

/-- C4 counterexample: target_path "../../etc/evil" under build root
"/work/build-1" joins to "/etc/evil", outside the build root; no
sanitation intervenes. -/
theorem downloadTargetFullPath_claimC4_false : ¬ c4ClaimStatement := by
  intro h
  have hx := h "/work/build-1" ⟨"http://x", "../../etc/evil", false⟩
  exact absurd hx (by decide)

/-- Helper: cleaning components containing no ".." only appends. -/
lemma cleanCompsAux_no_dotdot (l : List String) (h : ∀ c ∈ l, c ≠ "..") :
    ∀ acc, cleanCompsAux acc l = acc.reverse ++ l := by
  induction l with
  | nil => intro acc; simp [cleanCompsAux]
  | cons c rest ih =>
    intro acc
    rw [cleanCompsAux, if_neg (h c (List.mem_cons_self c rest))]
    rw [ih (fun x hx => h x (List.mem_cons_of_mem c hx)) (c :: acc)]
    simp

/-- Helper: a list is a Boolean prefix of itself followed by anything. -/
lemma isPrefixOf_append_self {α : Type} [BEq α] [LawfulBEq α] (l t : List α) :
    l.isPrefixOf (l ++ t) = true := by
  induction l with
  | nil => simp
  | cons c rest ih => simp [List.cons_append, List.isPrefixOf_cons₂, ih]

/-- Helper: rendering distributes over component concatenation for a
non-empty left part. -/
lemma joinWithSlash_cons_append (t : List String) (ht : t ≠ []) :
    ∀ (rest : List String) (c : String),
      joinWithSlash ((c :: rest) ++ t) = joinWithSlash (c :: rest) ++ '/' :: joinWithSlash t := by
  intro rest
  induction rest with
  | nil =>
    intro c
    cases t with
    | nil => exact absurd rfl ht
    | cons u us => simp [joinWithSlash]
  | cons c2 r2 ih =>
    intro c
    show c.data ++ '/' :: joinWithSlash ((c2 :: r2) ++ t)
      = (c.data ++ '/' :: joinWithSlash (c2 :: r2)) ++ '/' :: joinWithSlash t
    rw [ih c2]
    simp

/-- C4 amended: the target path is joined to the build root with no
traversal sanitation; when neither path contributes a ".." component the
written path is exactly the build root's components followed by the
target's components, hence (for a non-empty target) inside the root, but
a target_path with enough ".." components escapes. -/
theorem downloadTargetFullPath_claimC4_amended
    (buildDir : String) (res : ResourceM)
    (hb : ∀ c ∈ splitPath buildDir, c ≠ "..")
    (ht : ∀ c ∈ splitPath res.targetPath, c ≠ "..") :
    downloadTargetFullPath buildDir res
      = renderRooted (splitPath buildDir ++ splitPath res.targetPath) ∧
    (splitPath buildDir ≠ [] → splitPath res.targetPath ≠ [] →
      insideRoot buildDir (downloadTargetFullPath buildDir res) = true) := by
  have hjoin : joinComps (splitPath buildDir) (splitPath res.targetPath)
      = splitPath buildDir ++ splitPath res.targetPath := by
    rw [joinComps, cleanCompsAux_no_dotdot]
    · rfl
    · intro c hc
      rcases List.mem_append.mp hc with h | h
      · exact hb c h
      · exact ht c h
  refine ⟨by rw [downloadTargetFullPath, goJoinRooted, hjoin], ?_⟩
  intro hbne htne
  rw [insideRoot, downloadTargetFullPath, goJoinRooted, hjoin]
  rw [cleanRooted, cleanCompsAux_no_dotdot (splitPath buildDir) hb []]
  rw [List.reverse_nil, List.nil_append, goHasPrefixStr]
  cases hD : splitPath buildDir with
  | nil => exact absurd hD hbne
  | cons c rest =>
    rw [renderRooted, renderRooted]
    rw [joinWithSlash_cons_append (splitPath res.targetPath) htne rest c]
    show (String.mk ('/' :: joinWithSlash (c :: rest)) ++ "/").data.isPrefixOf
      ('/' :: (joinWithSlash (c :: rest) ++ '/' :: joinWithSlash (splitPath res.targetPath))) = true
    have hdata : (String.mk ('/' :: joinWithSlash (c :: rest)) ++ "/").data
        = ('/' :: joinWithSlash (c :: rest)) ++ ['/'] := rfl
    rw [hdata]
    have hsplit : ('/' :: (joinWithSlash (c :: rest) ++ '/' :: joinWithSlash (splitPath res.targetPath)))
        = (('/' :: joinWithSlash (c :: rest)) ++ ['/']) ++ joinWithSlash (splitPath res.targetPath) := by
      simp
    rw [hsplit]
    exact isPrefixOf_append_self _ _

/-- Witness for the amended C4 theorem at a traversal-free target path. -/
theorem downloadTargetFullPath_claimC4_amended_witness :
    downloadTargetFullPath "/work/build-1" ⟨"http://x", "assets/data.bin", false⟩
      = renderRooted (splitPath "/work/build-1" ++ splitPath "assets/data.bin") ∧
    (splitPath "/work/build-1" ≠ [] → splitPath "assets/data.bin" ≠ [] →
      insideRoot "/work/build-1"
        (downloadTargetFullPath "/work/build-1" ⟨"http://x", "assets/data.bin", false⟩) = true) :=
  downloadTargetFullPath_claimC4_amended "/work/build-1" ⟨"http://x", "assets/data.bin", false⟩
    (by decide) (by decide)

/-! Git codebase fetching (fetchGitRepoWithGoGit, claim C6).

The go-git transport is the external collaborator; its outcomes (clone,
worktree, checkout, fetch) are inputs to the embedded control flow, and
the sequence of git operations the function performs is returned as a
trace. -/

/-- Outcome of git.PlainCloneContext. -/
inductive CloneOutcome where
  | ok
  | authRequired
  | alreadyExists (msg : String)
  | otherErr (msg : String)
deriving Repr, DecidableEq

/-- Outcome of repo.FetchContext: success, the NoErrAlreadyUpToDate
sentinel, or a failure. -/
inductive FetchOutcome where
  | ok
  | upToDate
  | err (msg : String)
deriving Repr, DecidableEq

/-- The collaborator outcomes a run of fetchGitRepoWithGoGit observes
(a None checkout or worktree error means success). -/
structure GitWorld where
  cloneOutcome : CloneOutcome
  worktreeErr : Option String
  checkoutFirstErr : Option String
  fetchOutcome : FetchOutcome
  checkoutRetryErr : Option String
deriving Repr, DecidableEq

/-- Git operations performed, in order. -/
inductive GitOp where
  | cloneOp
  | checkoutOp (commit : String)
  | fetchOp (refspecs : List String)
deriving Repr, DecidableEq

/-- The refspecs of the recovery fetch: all branches and all tags. -/
def allRefSpecs : List String :=
  ["+refs/heads/*:refs/remotes/origin/*", "+refs/tags/*:refs/tags/*"]

/-- Number of checkout attempts in a trace. -/
def countCheckouts : List GitOp → Nat
  | [] => 0
  | GitOp.checkoutOp _ :: rest => countCheckouts rest + 1
  | _ :: rest => countCheckouts rest

/-- Translation of fetchGitRepoWithGoGit: clone (authentication failure
gets its own message), then, when a commit is requested, obtain the
worktree and attempt checkout; on checkout failure fetch all branch and
tag refs and retry the checkout exactly once, a fetch failure or a second
checkout failure failing the codebase. -/
def fetchGitRepoWithGoGit (config : CodebaseConfigM) (destDir : String) (w : GitWorld) :
    Except String Unit × List GitOp :=
  match w.cloneOutcome with
  | .authRequired =>
    (.error ("authentication require for the codebase fetching '" ++ config.source
      ++ "'. configure an auth provider (SSH key, token HTTPS)"), [GitOp.cloneOp])
  | .alreadyExists msg =>
    (.error ("the repertory '" ++ destDir ++ "' already existing (post verification error): "
      ++ msg), [GitOp.cloneOp])
  | .otherErr msg =>
    (.error ("error during the repository cloning '" ++ config.source ++ "' (branch: "
      ++ config.branch ++ "): " ++ msg), [GitOp.cloneOp])
  | .ok =>
    if config.commit = "" then (.ok (), [GitOp.cloneOp])
    else
      match w.worktreeErr with
      | some msg =>
        (.error ("cannot get the repository work tree '" ++ config.source
          ++ "' after cloning: " ++ msg), [GitOp.cloneOp])
      | none =>
        match w.checkoutFirstErr with
        | none => (.ok (), [GitOp.cloneOp, GitOp.checkoutOp config.commit])
        | some msg1 =>
          match w.fetchOutcome with
          | .err fmsg =>
            (.error ("error during the checkout of the commit '" ++ config.commit ++ "' ("
              ++ msg1 ++ ") and fetch also failed (" ++ fmsg ++ ")"),
              [GitOp.cloneOp, GitOp.checkoutOp config.commit, GitOp.fetchOp allRefSpecs])
          | _ =>
            match w.checkoutRetryErr with
            | none =>
              (.ok (), [GitOp.cloneOp, GitOp.checkoutOp config.commit,
                GitOp.fetchOp allRefSpecs, GitOp.checkoutOp config.commit])
            | some msg2 =>
              (.error ("error during the checkout of the commit '" ++ config.commit
                ++ "' (after fetch): " ++ msg2),
                [GitOp.cloneOp, GitOp.checkoutOp config.commit,
                  GitOp.fetchOp allRefSpecs, GitOp.checkoutOp config.commit])

/-- Helper: with a commit requested and a usable clone, the trace starts
with the clone followed by the checkout attempt. -/
lemma gitC6_trace_starts (config : CodebaseConfigM) (destDir : String) (w : GitWorld)
    (hcommit : config.commit ≠ "") (hco : w.cloneOutcome = CloneOutcome.ok)
    (hwt : w.worktreeErr = none) :
    (fetchGitRepoWithGoGit config destDir w).2.take 2
      = [GitOp.cloneOp, GitOp.checkoutOp config.commit] := by
  simp only [fetchGitRepoWithGoGit, hco]
  rw [if_neg hcommit]
  rw [hwt]
  cases hcf : w.checkoutFirstErr with
  | none => rfl
  | some m1 =>
    cases hfo : w.fetchOutcome with
    | err f => rfl
    | ok =>
      cases hcr : w.checkoutRetryErr with
      | none => rfl
      | some m2 => rfl
    | upToDate =>
      cases hcr : w.checkoutRetryErr with
      | none => rfl
      | some m2 => rfl

/-- Helper: a failed first checkout with a non-failing fetch leads to the
all-refs fetch and exactly one checkout retry; a second checkout failure
fails the fetch of the codebase. -/
lemma gitC6_retry (config : CodebaseConfigM) (destDir : String) (w : GitWorld)
    (hcommit : config.commit ≠ "") (hco : w.cloneOutcome = CloneOutcome.ok)
    (hwt : w.worktreeErr = none) (msg1 : String) (hcf : w.checkoutFirstErr = some msg1)
    (hfo : ∀ fmsg, w.fetchOutcome ≠ FetchOutcome.err fmsg) :
    (fetchGitRepoWithGoGit config destDir w).2
      = [GitOp.cloneOp, GitOp.checkoutOp config.commit, GitOp.fetchOp allRefSpecs,
         GitOp.checkoutOp config.commit] ∧
    countCheckouts (fetchGitRepoWithGoGit config destDir w).2 = 2 ∧
    (∀ msg2, w.checkoutRetryErr = some msg2 →
      exceptIsOk (fetchGitRepoWithGoGit config destDir w).1 = false) := by
  simp only [fetchGitRepoWithGoGit, hco]
  rw [if_neg hcommit, hwt, hcf]
  cases hfoc : w.fetchOutcome with
  | err f => exact absurd hfoc (hfo f)
  | ok =>
    cases hcr : w.checkoutRetryErr with
    | none => exact ⟨rfl, rfl, fun msg2 h2 => by cases h2⟩
    | some m2 => exact ⟨rfl, rfl, fun msg2 h2 => rfl⟩
  | upToDate =>
    cases hcr : w.checkoutRetryErr with
    | none => exact ⟨rfl, rfl, fun msg2 h2 => by cases h2⟩
    | some m2 => exact ⟨rfl, rfl, fun msg2 h2 => rfl⟩

/-- Helper: an error escaping fetchGitRepoWithGoGit starts with the
distinct "authentication require" text exactly when the clone failed on
authentication. -/
lemma gitC6_auth_distinct (config : CodebaseConfigM) (destDir : String) (w : GitWorld) :
    ∀ e, (fetchGitRepoWithGoGit config destDir w).1 = Except.error e →
      (goHasPrefixStr e "authentication require" = true
        ↔ w.cloneOutcome = CloneOutcome.authRequired) := by
  intro e he
  rcases w with ⟨co, wt, cf, fo, cr⟩
  cases co with
  | authRequired =>
    have hmsg := Except.error.inj he
    rw [← hmsg]
    rw [show goHasPrefixStr ("authentication require for the codebase fetching '"
      ++ config.source ++ "'. configure an auth provider (SSH key, token HTTPS)")
      "authentication require" = true from rfl]
    simp
  | alreadyExists m =>
    have hmsg := Except.error.inj he
    rw [← hmsg]
    rw [show goHasPrefixStr ("the repertory '" ++ destDir
      ++ "' already existing (post verification error): " ++ m)
      "authentication require" = false from rfl]
    simp
  | otherErr m =>
    have hmsg := Except.error.inj he
    rw [← hmsg]
    rw [show goHasPrefixStr ("error during the repository cloning '" ++ config.source
      ++ "' (branch: " ++ config.branch ++ "): " ++ m)
      "authentication require" = false from rfl]
    simp
  | ok =>
    simp only [fetchGitRepoWithGoGit] at he
    split at he
    · cases he
    · split at he
      · rename_i m
        have hmsg := Except.error.inj he
        rw [← hmsg, show goHasPrefixStr ("cannot get the repository work tree '"
          ++ config.source ++ "' after cloning: " ++ m) "authentication require"
          = false from rfl]
        simp
      · split at he
        · cases he
        · rename_i m1
          split at he
          · rename_i fmsg
            have hmsg := Except.error.inj he
            rw [← hmsg, show goHasPrefixStr ("error during the checkout of the commit '"
              ++ config.commit ++ "' (" ++ m1 ++ ") and fetch also failed (" ++ fmsg ++ ")")
              "authentication require" = false from rfl]
            simp
          · split at he
            · cases he
            · rename_i m2
              have hmsg := Except.error.inj he
              rw [← hmsg, show goHasPrefixStr ("error during the checkout of the commit '"
                ++ config.commit ++ "' (after fetch): " ++ m2) "authentication require"
                = false from rfl]
              simp

/-- C6: with a commit specified, the repository is cloned and the commit
checkout is attempted; a failed checkout triggers a fetch of all branch
and tag refs followed by exactly one checkout retry, whose failure fails
the codebase fetch; and an authentication failure during clone is
reported with a distinct error message (only clone-auth errors carry the
"authentication require" text). -/
theorem fetchGitRepoWithGoGit_claimC6 (config : CodebaseConfigM) (destDir : String)
    (w : GitWorld) (hcommit : config.commit ≠ "") :
    (w.cloneOutcome = CloneOutcome.ok → w.worktreeErr = none →
      (fetchGitRepoWithGoGit config destDir w).2.take 2
        = [GitOp.cloneOp, GitOp.checkoutOp config.commit]) ∧
    (w.cloneOutcome = CloneOutcome.ok → w.worktreeErr = none →
      ∀ msg1, w.checkoutFirstErr = some msg1 →
      (∀ fmsg, w.fetchOutcome ≠ FetchOutcome.err fmsg) →
      (fetchGitRepoWithGoGit config destDir w).2
        = [GitOp.cloneOp, GitOp.checkoutOp config.commit, GitOp.fetchOp allRefSpecs,
           GitOp.checkoutOp config.commit] ∧
      countCheckouts (fetchGitRepoWithGoGit config destDir w).2 = 2 ∧
      (∀ msg2, w.checkoutRetryErr = some msg2 →
        exceptIsOk (fetchGitRepoWithGoGit config destDir w).1 = false)) ∧
    (w.cloneOutcome = CloneOutcome.authRequired →
      (fetchGitRepoWithGoGit config destDir w).1
        = Except.error ("authentication require for the codebase fetching '" ++ config.source
            ++ "'. configure an auth provider (SSH key, token HTTPS)")) ∧
    (∀ e, (fetchGitRepoWithGoGit config destDir w).1 = Except.error e →
      (goHasPrefixStr e "authentication require" = true
        ↔ w.cloneOutcome = CloneOutcome.authRequired)) := by
  refine ⟨fun hco hwt => gitC6_trace_starts config destDir w hcommit hco hwt,
    fun hco hwt msg1 hcf hfo => gitC6_retry config destDir w hcommit hco hwt msg1 hcf hfo,
    fun hco => ?_,
    gitC6_auth_distinct config destDir w⟩
  simp only [fetchGitRepoWithGoGit, hco]

/-- A git codebase with a pinned commit. -/
def gitDemoConfig : CodebaseConfigM :=
  { name := "app", sourceType := "git", source := "https://example.com/repo.git",
    branch := "", commit := "abc123", content := [], buildOnly := false, targetInHost := "" }

/-- A run whose first checkout fails and whose recovery fetch succeeds. -/
def gitDemoWorld : GitWorld :=
  { cloneOutcome := CloneOutcome.ok, worktreeErr := none,
    checkoutFirstErr := some "object not found", fetchOutcome := FetchOutcome.ok,
    checkoutRetryErr := none }

/-- Witness for C6 at a concrete run: the fetch-then-retry trace occurs
with exactly two checkout attempts. -/
theorem fetchGitRepoWithGoGit_claimC6_witness :
    (fetchGitRepoWithGoGit gitDemoConfig "/w/app" gitDemoWorld).2
      = [GitOp.cloneOp, GitOp.checkoutOp "abc123", GitOp.fetchOp allRefSpecs,
         GitOp.checkoutOp "abc123"] ∧
    countCheckouts (fetchGitRepoWithGoGit gitDemoConfig "/w/app" gitDemoWorld).2 = 2 := by
  have h := (fetchGitRepoWithGoGit_claimC6 gitDemoConfig "/w/app" gitDemoWorld
    (by decide)).2.1 rfl rfl "object not found" rfl
    (fun fmsg hx => FetchOutcome.noConfusion hx)
  exact ⟨h.1, h.2.1⟩

/-! Connection send queue (socket/conn.go, claim C5).

A connection's outgoing messages go through a 256-slot buffered channel;
sendMsg enqueues when the buffer has room and drops the message
otherwise, and the write pump drains the buffer in FIFO order.  A run is
a sequence of enqueue and dequeue operations over the state (pending
queue, delivered-so-far). -/

/-- An outgoing message, by type tag and build id. -/
structure QMsg where
  msgType : String
  buildID : String
deriving Repr, DecidableEq

/-- The send channel's buffer capacity (make(chan *Message, 256)). -/
def sendQueueCap : Nat := 256

/-- Translation of connection.sendMsg: enqueue when the buffer has room,
otherwise drop the message with a warning. -/
def sendMsg (queue : List QMsg) (m : QMsg) : List QMsg :=
  if queue.length < sendQueueCap then queue ++ [m] else queue

/-- One scheduler event on a connection: a producer enqueue or a write
pump dequeue. -/
inductive QOp where
  | enq (m : QMsg)
  | deq
deriving Repr, DecidableEq

/-- One step of the connection: state is (pending queue, delivered). -/
def connStep : List QMsg × List QMsg → QOp → List QMsg × List QMsg
  | (q, d), .enq m => (sendMsg q m, d)
  | (q, d), .deq =>
    match q with
    | [] => (q, d)
    | m :: rest => (rest, d ++ [m])

/-- Run a sequence of connection events. -/
def runConnOps (ops : List QOp) (s : List QMsg × List QMsg) : List QMsg × List QMsg :=
  ops.foldl connStep s

/-- The eventual delivery order: messages already delivered, followed by
the pending queue the write pump will drain in FIFO order. -/
def deliveredStream (s : List QMsg × List QMsg) : List QMsg :=
  s.2 ++ s.1

/-- The messages a sequence of events attempts to enqueue, in order. -/
def enqueuedMsgs : List QOp → List QMsg
  | [] => []
  | QOp.enq m :: rest => m :: enqueuedMsgs rest
  | QOp.deq :: rest => enqueuedMsgs rest

/-- Index of the first occurrence of a message in the stream. -/
def firstIdx (l : List QMsg) (m : QMsg) : Option Nat :=
  l.findIdx? (fun x => x == m)

/-- Message a is delivered before message b in the stream. -/
def deliveredBefore (l : List QMsg) (a b : QMsg) : Prop :=
  ∀ j, firstIdx l b = some j → ∃ i, firstIdx l a = some i ∧ i < j

/-- Claim C5 as stated: for every accepted build request (the
build_queued reply is handed to sendMsg before the build task can
enqueue anything), the reply is delivered before any later message of
that build, whatever the queue held beforehand. -/
def c5ClaimStatement : Prop :=
  ∀ (q0 : List QMsg) (opsAfter : List QOp) (bid : String),
    (∀ m ∈ q0, m.buildID ≠ bid) →
    ∀ ev, ev ∈ deliveredStream (runConnOps (QOp.enq ⟨"build_queued", bid⟩ :: opsAfter) (q0, [])) →
      ev.buildID = bid → ev ≠ ⟨"build_queued", bid⟩ →
      deliveredBefore
        (deliveredStream (runConnOps (QOp.enq ⟨"build_queued", bid⟩ :: opsAfter) (q0, [])))
        ⟨"build_queued", bid⟩ ev

/-- A message of an unrelated build, used to fill the queue. -/
def junkMsg : QMsg := ⟨"log_chunk", "other"⟩

/-- A send queue already holding 256 messages. -/
def fullQueue : List QMsg := List.replicate 256 junkMsg

/-- The build_queued reply for build "b1". -/
def c5Ack : QMsg := ⟨"build_queued", "b1"⟩

/-- A later log chunk for build "b1". -/
def c5Ev : QMsg := ⟨"log_chunk", "b1"⟩

/-- C5 counterexample: with the send queue full, sendMsg drops the
build_queued reply; after the write pump drains one slot, a later
log_chunk for the same build is enqueued and delivered, so the reply
never precedes it. -/
theorem sendMsg_claimC5_false : ¬ c5ClaimStatement := by
  intro h
  have h1 := h fullQueue [QOp.deq, QOp.enq c5Ev] "b1"
    (fun m hm => by rw [List.eq_of_mem_replicate hm]; decide)
    c5Ev (by decide) (by decide) (by decide)
  rcases h1 256 (by decide) with ⟨i, hi, _⟩
  have hnone : firstIdx
      (deliveredStream (runConnOps (QOp.enq ⟨"build_queued", "b1"⟩ :: [QOp.deq, QOp.enq c5Ev])
        (fullQueue, []))) ⟨"build_queued", "b1"⟩ = none := by decide
  rw [hnone] at hi
  cases hi

/-- Helper: running events only appends to the delivery stream, and the
appended part comes from the enqueued messages in order. -/
lemma connRun_stream_extends (ops : List QOp) :
    ∀ s : List QMsg × List QMsg,
      ∃ rest, deliveredStream (runConnOps ops s) = deliveredStream s ++ rest ∧
        rest.Sublist (enqueuedMsgs ops) := by
  induction ops with
  | nil => intro s; exact ⟨[], by simp [runConnOps], List.nil_sublist _⟩
  | cons op rest ih =>
    intro s
    have hfold : runConnOps (op :: rest) s = runConnOps rest (connStep s op) := by
      simp [runConnOps]
    cases op with
    | deq =>
      have hstep : deliveredStream (connStep s QOp.deq) = deliveredStream s := by
        rcases s with ⟨q, d⟩
        cases q with
        | nil => rfl
        | cons m r => simp [connStep, deliveredStream]
      obtain ⟨r2, h2, hsub⟩ := ih (connStep s QOp.deq)
      exact ⟨r2, by rw [hfold, h2, hstep], hsub⟩
    | enq m =>
      rcases s with ⟨q, d⟩
      by_cases hlen : q.length < sendQueueCap
      · have hstep : deliveredStream (connStep (q, d) (QOp.enq m))
            = deliveredStream (q, d) ++ [m] := by
          simp [connStep, sendMsg, hlen, deliveredStream]
        obtain ⟨r2, h2, hsub⟩ := ih (connStep (q, d) (QOp.enq m))
        refine ⟨m :: r2, ?_, List.Sublist.cons₂ m hsub⟩
        rw [hfold, h2, hstep]
        simp
      · have hstep : deliveredStream (connStep (q, d) (QOp.enq m)) = deliveredStream (q, d) := by
          simp [connStep, sendMsg, hlen, deliveredStream]
        obtain ⟨r2, h2, hsub⟩ := ih (connStep (q, d) (QOp.enq m))
        exact ⟨r2, by rw [hfold, h2, hstep], List.Sublist.cons m hsub⟩

/-- C5 amended: provided the send queue has room when the build_queued
reply is enqueued, the reply lands right after the pre-existing queue
content and every message enqueued afterwards (in particular every
log_chunk and build_status of that build) appears after it in the
delivery stream; when the queue is full the reply is dropped and the
ordering guarantee is void. -/
theorem sendMsg_claimC5_amended (q0 : List QMsg) (ack : QMsg) (opsAfter : List QOp)
    (hroom : q0.length < sendQueueCap) :
    ∃ rest, deliveredStream (runConnOps (QOp.enq ack :: opsAfter) (q0, []))
        = q0 ++ ack :: rest ∧ rest.Sublist (enqueuedMsgs opsAfter) := by
  obtain ⟨rest, h, hsub⟩ := connRun_stream_extends opsAfter (connStep (q0, []) (QOp.enq ack))
  refine ⟨rest, ?_, hsub⟩
  have hfold : runConnOps (QOp.enq ack :: opsAfter) (q0, [])
      = runConnOps opsAfter (connStep (q0, []) (QOp.enq ack)) := by
    simp [runConnOps]
  have hstep : deliveredStream (connStep (q0, []) (QOp.enq ack)) = q0 ++ [ack] := by
    simp [connStep, sendMsg, hroom, deliveredStream]
  rw [hfold, h, hstep]
  simp

/-- Witness for the amended C5 theorem at an empty initial queue. -/
theorem sendMsg_claimC5_amended_witness :
    ∃ rest, deliveredStream (runConnOps (QOp.enq c5Ack :: [QOp.enq c5Ev]) ([], []))
        = [] ++ c5Ack :: rest ∧ rest.Sublist (enqueuedMsgs [QOp.enq c5Ev]) :=
  sendMsg_claimC5_amended [] c5Ack [QOp.enq c5Ev] (by decide)

/-! Terminal build status delivery (claim C2).

The notifier keeps a build-to-connection registration; NotifyStatus looks
the connection up under a read lock, sends the build_status when the
registration is present, and removes the registration on a terminal
status (when the lookup finds nothing it only removes the registration).
On a build-spec parse failure, StartBuildAsync spawns
NotifyStatus(buildID, "failure") in a goroutine AND returns the error,
upon which the caller in handleMessage invokes NotifyStatus(buildID,
"failure") again: two concurrent NotifyStatus calls for the same build.
Each call is three atomic micro-steps (lookup, send, unregister);
a schedule interleaves the two calls' micro-steps. -/

/-- Registration state of one build in the notifier, plus the statuses
sent to the connection so far. -/
structure NotifierRegState where
  registered : Bool
  sentStatuses : List String
deriving Repr, DecidableEq

/-- One NotifyStatus call in progress: its status argument, its program
counter, and the connection lookup result it observed. -/
structure NotifyThread where
  status : String
  pc : Nat
  found : Bool
deriving Repr, DecidableEq

/-- One micro-step of NotifyStatus: pc 0 looks the connection up under
the read lock; pc 1 sends the build_status when the lookup succeeded
(else unregisters and stops); pc 2 unregisters on a terminal status. -/
def notifyStep (g : NotifierRegState) (t : NotifyThread) : NotifierRegState × NotifyThread :=
  match t.pc with
  | 0 => (g, { t with found := g.registered, pc := 1 })
  | 1 =>
    if t.found then
      ({ g with sentStatuses := g.sentStatuses ++ [t.status] }, { t with pc := 2 })
    else
      ({ g with registered := false }, { t with pc := 3 })
  | 2 =>
    (if t.status = "success" ∨ t.status = "failure" then { g with registered := false } else g,
      { t with pc := 3 })
  | _ => (g, t)

/-- Run a schedule over two concurrent NotifyStatus calls: true steps the
first call, false the second. -/
def runNotifySchedule : List Bool → NotifierRegState × NotifyThread × NotifyThread →
    NotifierRegState × NotifyThread × NotifyThread
  | [], s => s
  | pick :: rest, (g, a, b) =>
    if pick then
      runNotifySchedule rest ((notifyStep g a).1, (notifyStep g a).2, b)
    else
      runNotifySchedule rest ((notifyStep g b).1, a, (notifyStep g b).2)

/-- NotifyStatus("failure") calls StartBuildAsync itself issues: one, in
its own goroutine, when the spec fails to load. -/
def startBuildAsyncNotifyCalls (loadResult : Except String BuildSpecM) : List String :=
  match loadResult with
  | .error _ => ["failure"]
  | .ok _ => []

/-- Whether StartBuildAsync returns an error to its caller. -/
def startBuildAsyncFails (loadResult : Except String BuildSpecM) : Bool :=
  match loadResult with
  | .error _ => true
  | .ok _ => false

/-- All NotifyStatus("failure") invocations issued for one accepted build
request whose spec loading yields the given result: StartBuildAsync's own
goroutine call, plus handleMessage's goroutine calling again when
StartBuildAsync returned the error. -/
def buildRequestFailureNotifyCalls (loadResult : Except String BuildSpecM) : List String :=
  startBuildAsyncNotifyCalls loadResult
    ++ (if startBuildAsyncFails loadResult then ["failure"] else [])

/-- A NotifyStatus call that has not started yet. -/
def freshNotifyThread (status : String) : NotifyThread := ⟨status, 0, false⟩

/-- A structurally decodable build-spec document with no name. -/
def c2BadDoc : BuildSpecDoc := { emptyDoc with version := some "1" }

/-- C2 at its failing input: an accepted build request whose spec YAML
fails validation triggers two concurrent NotifyStatus("failure")
invocations; under the interleaving where both calls look the connection
up before either unregisters, the connection is sent two terminal
failure build_status messages, while a serialized execution of the same
two calls sends exactly one (the second lookup finds the registration
gone).  The exactly-once delivery the claim states holds only when the
two calls do not race. -/
theorem notifyStatus_claimC2_double_failure :
    buildRequestFailureNotifyCalls (LoadBuildSpecFromBytes (Except.ok c2BadDoc))
      = ["failure", "failure"] ∧
    (runNotifySchedule [true, false, true, true, false, false]
      (⟨true, []⟩, freshNotifyThread "failure", freshNotifyThread "failure")).1.sentStatuses
      = ["failure", "failure"] ∧
    (runNotifySchedule [true, true, true, false, false, false]
      (⟨true, []⟩, freshNotifyThread "failure", freshNotifyThread "failure")).1.sentStatuses
      = ["failure"] := by decide

end Anexis
